import Mathlib

/-
Verification of the Stream Deck scaffold's action lifecycle controller
(src/scaffold/src/actions/example-action.ts) and of the SVG escaping helper
(src/scaffold/src/utils/button-renderer.ts).

The action class owns a single field `timers : Map<string, Timer>`.  Its
handlers are modelled as state transformers over an explicit state that
records, besides the map, the set of interval timers that are actually
running (`live`) -- a handle removed from the map by `Map.set` overwrite is
NOT stopped, which the `live` component makes observable -- and the last
image written per instance (`display`).  Each handler also returns the list
of externally visible calls it makes (setImage / setTitle / clearInterval /
setInterval), in source order.
-/

set_option maxHeartbeats 1000000

namespace StreamDeck

/-- Per-action settings (src/scaffold/src/types.ts, `__ACTION_CLASS__Settings`):
optional `resource`, optional `refreshInterval` (seconds), plus the
`[key: string]: JsonValue` index signature modelled as an association list
of further keys. -/
structure ActionSettings where
  resource : Option String
  refreshInterval : Option Nat
  extra : List (String × String)
  deriving DecidableEq

/-- Images the scaffold can draw on a key
(src/scaffold/src/utils/button-renderer.ts renderers, as used by
example-action.ts). `keyImage r` is `renderKeyImage` with `line3 = r`. -/
inductive Display where
  | unconfigured
  | loading
  | errorNoToken
  | errorMsg (msg : String)
  | keyImage (resource : Option String)
  deriving DecidableEq

/-- Externally visible calls a handler makes, in source order. -/
inductive Ev where
  | setImage (d : Display)
  | setTitle
  | clearIntervalEv (h : Nat)
  | setIntervalEv (h : Nat) (periodMs : Nat)
  | refreshStart
  deriving DecidableEq

/-- Outcome of the awaited calls inside `refresh`'s try block:
`streamDeck.settings.getGlobalSettings` either resolves (with or without an
`apiToken`) or rejects with an error message. -/
inductive FetchOutcome where
  | ok (hasApiToken : Bool)
  | failed (msg : String)
  deriving DecidableEq

/-- `DEFAULT_REFRESH_INTERVAL = 300` (example-action.ts line 33). -/
def DEFAULT_REFRESH_INTERVAL : Nat := 300

/-- Association-list lookup, first match wins (JS `Map.get`). -/
def aGet {α : Type} : List (String × α) → String → Option α
  | [], _ => none
  | p :: rest, k => if p.1 = k then some p.2 else aGet rest k

/-- Removal of every binding of a key (JS `Map.delete`). -/
def aDel {α : Type} : List (String × α) → String → List (String × α)
  | [], _ => []
  | p :: rest, k => if p.1 = k then aDel rest k else p :: aDel rest k

/-- Overwriting insert (JS `Map.set`). -/
def aSet {α : Type} (m : List (String × α)) (k : String) (v : α) :
    List (String × α) :=
  (k, v) :: aDel m k

/-- Controller state: the `timers` map of the action class, the interval
timers actually running (`handle, owner instanceId, period in ms`), a fresh
handle counter, and the last image drawn per instance. -/
structure St where
  timers : List (String × Nat)
  live : List (Nat × String × Nat)
  nextHandle : Nat
  display : List (String × Display)
  deriving DecidableEq

/-- Calls `refresh` makes (example-action.ts lines 110-143): loading image
and title, then -- depending on how `getGlobalSettings` resolves -- the
"No Token" error image, the rendered key image (line3 = `settings.resource`),
or, via the catch block, the error image with the error's message.
`refreshStart` marks entry into `refresh`. -/
def refreshTrace (s : ActionSettings) (out : FetchOutcome) : List Ev :=
  Ev.refreshStart :: Ev.setImage Display.loading :: Ev.setTitle ::
    match out with
    | FetchOutcome.ok true =>
        [Ev.setImage (Display.keyImage s.resource), Ev.setTitle]
    | FetchOutcome.ok false =>
        [Ev.setImage Display.errorNoToken, Ev.setTitle]
    | FetchOutcome.failed msg =>
        [Ev.setImage (Display.errorMsg msg), Ev.setTitle]

/-- Folding step recording the most recent `setImage`. -/
def updImg (acc : Option Display) (e : Ev) : Option Display :=
  match e with
  | Ev.setImage d => some d
  | _ => acc

/-- The last image written by a trace, if any. -/
def lastImage (tr : List Ev) : Option Display :=
  tr.foldl updImg none

/-- Record in `display` the last image a handler wrote for `id`. -/
def applyDisplay (st : St) (id : String) (tr : List Ev) : St :=
  match lastImage tr with
  | some d => { st with display := aSet st.display id d }
  | none => st

/-- The interval timers still running for this id after the
`const timer = this.timers.get(id); if (timer) clearInterval(timer)` step
shared by onWillDisappear (lines 66-67) and onDidReceiveSettings
(lines 86-87). -/
def clearedLive (st : St) (id : String) : List (Nat × String × Nat) :=
  match aGet st.timers id with
  | some h => st.live.filter (fun t => t.1 != h)
  | none => st.live

/-- The `clearInterval` call emitted by that step, if a timer was mapped. -/
def clearEvs (st : St) (id : String) : List Ev :=
  match aGet st.timers id with
  | some h => [Ev.clearIntervalEv h]
  | none => []

/-- Calls made by `onWillAppear` (lines 43-59): unconfigured placeholder
when `settings.resource` is absent, otherwise one refresh followed by one
`setInterval` at `(refreshInterval ?? 300) * 1000` ms.  NOTE: no
`clearInterval` is emitted on this path. -/
def appearTrace (st : St) (s : ActionSettings) (out : FetchOutcome) :
    List Ev :=
  match s.resource with
  | none => [Ev.setImage Display.unconfigured, Ev.setTitle]
  | some _ =>
      refreshTrace s out ++
        [Ev.setIntervalEv st.nextHandle
          ((s.refreshInterval.getD DEFAULT_REFRESH_INTERVAL) * 1000)]

/-- `onWillAppear` (example-action.ts lines 43-59).  With a resource the
handler refreshes once and does `this.timers.set(id, setInterval(...))`:
the map entry is overwritten but no existing interval is cleared. -/
def onWillAppear (st : St) (id : String) (s : ActionSettings)
    (out : FetchOutcome) : St × List Ev :=
  let tr := appearTrace st s out
  match s.resource with
  | none => (applyDisplay st id tr, tr)
  | some _ =>
      (applyDisplay
        { st with
          timers := aSet st.timers id st.nextHandle,
          live := (st.nextHandle, id,
            (s.refreshInterval.getD DEFAULT_REFRESH_INTERVAL) * 1000) ::
              st.live,
          nextHandle := st.nextHandle + 1 } id tr, tr)

/-- `onWillDisappear` (lines 65-69): get the mapped timer, clear it when
present, delete the map entry. -/
def onWillDisappear (st : St) (id : String) : St × List Ev :=
  ({ st with
     timers := aDel st.timers id,
     live := clearedLive st id }, clearEvs st id)

/-- `onKeyDown` (lines 75-78): nothing without a resource, otherwise one
refresh; the timer table is untouched. -/
def onKeyDown (st : St) (id : String) (s : ActionSettings)
    (out : FetchOutcome) : St × List Ev :=
  match s.resource with
  | none => (st, [])
  | some _ =>
      let tr := refreshTrace s out
      (applyDisplay st id tr, tr)

/-- Calls made by `onDidReceiveSettings` (lines 84-105): clear the mapped
timer first; then either the unconfigured placeholder (resource absent) or
a refresh followed by a new `setInterval`. -/
def didReceiveTrace (st : St) (id : String) (s : ActionSettings)
    (out : FetchOutcome) : List Ev :=
  clearEvs st id ++
    match s.resource with
    | none => [Ev.setImage Display.unconfigured, Ev.setTitle]
    | some _ =>
        refreshTrace s out ++
          [Ev.setIntervalEv st.nextHandle
            ((s.refreshInterval.getD DEFAULT_REFRESH_INTERVAL) * 1000)]

/-- `onDidReceiveSettings` (lines 84-105).  Always cancels the mapped timer
first; with no resource it renders the placeholder and deletes the entry;
otherwise it refreshes with `ev.payload.settings` as delivered (the class
keeps no settings cache and performs no merge) and installs a new timer. -/
def onDidReceiveSettings (st : St) (id : String) (s : ActionSettings)
    (out : FetchOutcome) : St × List Ev :=
  let tr := didReceiveTrace st id s out
  match s.resource with
  | none =>
      (applyDisplay
        { st with
          timers := aDel st.timers id,
          live := clearedLive st id } id tr, tr)
  | some _ =>
      (applyDisplay
        { st with
          timers := aSet st.timers id st.nextHandle,
          live := (st.nextHandle, id,
            (s.refreshInterval.getD DEFAULT_REFRESH_INTERVAL) * 1000) ::
              clearedLive st id,
          nextHandle := st.nextHandle + 1 } id tr, tr)

/-- A lifecycle call delivered by the host, with the environment outcome
its refresh (if any) observes. -/
inductive Call where
  | appear (id : String) (s : ActionSettings) (out : FetchOutcome)
  | disappear (id : String)
  | settingsChanged (id : String) (s : ActionSettings) (out : FetchOutcome)
  | keyDown (id : String) (s : ActionSettings) (out : FetchOutcome)
  deriving DecidableEq

/-- One handler invocation. -/
def step (st : St) (c : Call) : St × List Ev :=
  match c with
  | Call.appear id s out => onWillAppear st id s out
  | Call.disappear id => onWillDisappear st id
  | Call.settingsChanged id s out => onDidReceiveSettings st id s out
  | Call.keyDown id s out => onKeyDown st id s out

/-- Run a sequence of lifecycle calls. -/
def run (st : St) : List Call → St
  | [] => st
  | c :: cs => run (step st c).1 cs

/-- Fresh controller state: empty map, no running timers. -/
def st0 : St := ⟨[], [], 0, []⟩

/-- Number of interval timers currently running whose owner is `id`. -/
def activeFor (st : St) (id : String) : Nat :=
  (st.live.filter (fun t => t.2.1 == id)).length

/-- Number of refresh cycles started in a trace. -/
def countRefreshes (tr : List Ev) : Nat :=
  (tr.filter (fun e => e == Ev.refreshStart)).length

/-- The `setInterval` installations in a trace: (handle, period in ms). -/
def installsOf (tr : List Ev) : List (Nat × Nat) :=
  tr.filterMap (fun e =>
    match e with
    | Ev.setIntervalEv h p => some (h, p)
    | _ => none)

/-- Host pairing condition for one call in one state: a `willAppear` for
an id is delivered only while no timer of that id runs. -/
def callOk (st : St) : Call → Bool
  | Call.appear id _ _ => activeFor st id == 0
  | _ => true

/-- A call sequence respecting the host's appear/disappear pairing. -/
def pairedFrom (st : St) : List Call → Bool
  | [] => true
  | c :: cs => callOk st c && pairedFrom (step st c).1 cs

/-- Sample settings used by concrete scenarios. -/
def sRes : ActionSettings := ⟨some "x", some 60, []⟩

/-- Sample settings with no refreshInterval (default applies). -/
def sRes300 : ActionSettings := ⟨some "x", none, []⟩

/-- Sample settings with no resource. -/
def sNone : ActionSettings := ⟨none, some 60, []⟩

/-- Sample settings carrying an additional key. -/
def sExtra : ActionSettings := ⟨some "x", some 60, [("note", "n1")]⟩

example : activeFor (run st0 [Call.appear "b" sRes (FetchOutcome.ok true),
    Call.appear "b" sRes (FetchOutcome.ok true)]) "b" = 2 := by decide

example : activeFor (run st0 [Call.appear "b" sRes (FetchOutcome.ok true),
    Call.disappear "b", Call.disappear "b"]) "b" = 0 := by decide

theorem aGet_aSet_self {α : Type} (m : List (String × α)) (k : String)
    (v : α) : aGet (aSet m k v) k = some v := by
  simp [aGet, aSet]

theorem aGet_aDel_self {α : Type} (m : List (String × α)) (k : String) :
    aGet (aDel m k) k = none := by
  induction m with
  | nil => rfl
  | cons p rest ih =>
      by_cases h : p.1 = k
      · simpa [aDel, h] using ih
      · simpa [aDel, aGet, h] using ih

theorem aGet_aDel_ne {α : Type} (m : List (String × α)) (k k1 : String)
    (hne : k1 ≠ k) : aGet (aDel m k) k1 = aGet m k1 := by
  induction m with
  | nil => rfl
  | cons p rest ih =>
      obtain ⟨a, b⟩ := p
      by_cases h : a = k
      · have hp : a ≠ k1 := by
          intro he
          exact hne (he ▸ h)
        rw [show aDel ((a, b) :: rest) k = aDel rest k by simp [aDel, h]]
        rw [ih]
        simp [aGet, hp]
      · rw [show aDel ((a, b) :: rest) k = (a, b) :: aDel rest k by
          simp [aDel, h]]
        by_cases h1 : a = k1
        · simp [aGet, h1]
        · simp [aGet, h1, ih]

theorem aGet_aSet_ne {α : Type} (m : List (String × α)) (k k1 : String)
    (v : α) (hne : k1 ≠ k) : aGet (aSet m k v) k1 = aGet m k1 := by
  have hk : k ≠ k1 := fun he => hne he.symm
  simp [aSet, aGet, hk]
  exact aGet_aDel_ne m k k1 hne

theorem aDel_of_get_none {α : Type} (m : List (String × α)) (k : String)
    (h : aGet m k = none) : aDel m k = m := by
  induction m with
  | nil => rfl
  | cons p rest ih =>
      by_cases hp : p.1 = k
      · simp [aGet, hp] at h
      · simp [aGet, hp] at h
        simp [aDel, hp, ih h]

theorem aGet_mem {α : Type} (m : List (String × α)) (k : String) (v : α)
    (h : aGet m k = some v) : (k, v) ∈ m := by
  induction m with
  | nil => simp [aGet] at h
  | cons p rest ih =>
      obtain ⟨a, b⟩ := p
      by_cases hp : a = k
      · simp [aGet, hp] at h
        subst hp
        subst h
        exact List.mem_cons_self _ _
      · simp [aGet, hp] at h
        exact List.mem_cons_of_mem _ (ih h)

/-- The timer-table invariant maintained by the controller under the
host's appear/disappear pairing: every running interval is the one its
owner's map entry points at; map values are fresh-bounded and distinct;
running handles are distinct. -/
structure InvP (timers : List (String × Nat))
    (live : List (Nat × String × Nat)) (nextHandle : Nat) : Prop where
  liveMapped : ∀ t ∈ live, aGet timers t.2.1 = some t.1
  mapBound : ∀ k h, aGet timers k = some h → h < nextHandle
  mapInj : ∀ k1 k2 h, aGet timers k1 = some h →
    aGet timers k2 = some h → k1 = k2
  liveNodup : (live.map (fun t => t.1)).Nodup

/-- The invariant read off a controller state. -/
abbrev Inv (st : St) : Prop := InvP st.timers st.live st.nextHandle

theorem inv_st0 : Inv st0 := by
  refine ⟨?_, ?_, ?_, ?_⟩ <;> simp [st0, aGet]

theorem applyDisplay_timers (st : St) (id : String) (tr : List Ev) :
    (applyDisplay st id tr).timers = st.timers := by
  cases h : lastImage tr <;> simp [applyDisplay, h]

theorem applyDisplay_live (st : St) (id : String) (tr : List Ev) :
    (applyDisplay st id tr).live = st.live := by
  cases h : lastImage tr <;> simp [applyDisplay, h]

theorem applyDisplay_nextHandle (st : St) (id : String) (tr : List Ev) :
    (applyDisplay st id tr).nextHandle = st.nextHandle := by
  cases h : lastImage tr <;> simp [applyDisplay, h]

theorem inv_of_parts (st st2 : St) (ht : st2.timers = st.timers)
    (hl : st2.live = st.live) (hn : st2.nextHandle = st.nextHandle)
    (hInv : Inv st) : Inv st2 := by
  show InvP st2.timers st2.live st2.nextHandle
  rw [ht, hl, hn]
  exact hInv

theorem cleared_no_owner (st : St) (id : String)
    (hlm : ∀ t ∈ st.live, aGet st.timers t.2.1 = some t.1) :
    ∀ t ∈ clearedLive st id, t.2.1 ≠ id := by
  intro t ht hid
  unfold clearedLive at ht
  cases h : aGet st.timers id with
  | none =>
      rw [h] at ht
      have := hlm t ht
      rw [hid] at this
      rw [h] at this
      exact Option.noConfusion this
  | some h0 =>
      rw [h] at ht
      have hmem := List.mem_filter.mp ht
      have := hlm t hmem.1
      rw [hid, h] at this
      have heq : h0 = t.1 := Option.some.inj this
      have : (t.1 != h0) = true := hmem.2
      simp [bne] at this
      exact this heq.symm

theorem clearedLive_sublist (st : St) (id : String) :
    List.Sublist (clearedLive st id) st.live := by
  unfold clearedLive
  cases aGet st.timers id with
  | none => exact List.Sublist.refl _
  | some h0 => exact List.filter_sublist _

/-- Installing a fresh interval for an id that currently owns none
preserves the invariant.  This is the shared conclusion of the configured
branches of `onWillAppear` and `onDidReceiveSettings`. -/
theorem inv_install (m : List (String × Nat))
    (l : List (Nat × String × Nat)) (n : Nat) (id : String) (p : Nat)
    (hInv : InvP m l n) (hfree : ∀ t ∈ l, t.2.1 ≠ id) :
    InvP (aSet m id n) ((n, id, p) :: l) (n + 1) := by
  refine ⟨?_, ?_, ?_, ?_⟩
  · intro t ht
    rcases List.mem_cons.mp ht with heq | hmem
    · subst heq
      exact aGet_aSet_self m id n
    · have hne : t.2.1 ≠ id := hfree t hmem
      rw [aGet_aSet_ne m id t.2.1 n hne]
      exact hInv.liveMapped t hmem
  · intro k h hk
    by_cases hkid : k = id
    · subst hkid
      rw [aGet_aSet_self] at hk
      have hn : n = h := Option.some.inj hk
      omega
    · rw [aGet_aSet_ne m id k n hkid] at hk
      have := hInv.mapBound k h hk
      omega
  · intro k1 k2 h h1 h2
    by_cases h1id : k1 = id <;> by_cases h2id : k2 = id
    · rw [h1id, h2id]
    · subst h1id
      rw [aGet_aSet_self] at h1
      rw [aGet_aSet_ne m k1 k2 n h2id] at h2
      have hn : h = n := (Option.some.inj h1).symm
      subst hn
      exact absurd (hInv.mapBound k2 h h2) (by omega)
    · subst h2id
      rw [aGet_aSet_self] at h2
      rw [aGet_aSet_ne m k2 k1 n h1id] at h1
      have hn : h = n := (Option.some.inj h2).symm
      subst hn
      exact absurd (hInv.mapBound k1 h h1) (by omega)
    · rw [aGet_aSet_ne m id k1 n h1id] at h1
      rw [aGet_aSet_ne m id k2 n h2id] at h2
      exact hInv.mapInj k1 k2 h h1 h2
  · rw [List.map_cons]
    refine List.Nodup.cons ?_ hInv.liveNodup
    intro hmem
    rcases List.mem_map.mp hmem with ⟨t, htl, hth⟩
    have := hInv.mapBound t.2.1 t.1 (hInv.liveMapped t htl)
    omega
    -- t.1 = n contradicts t.1 < n

/-- Lookups surviving a `Map.delete` come from the original map. -/
theorem aGet_aDel_cases {α : Type} (m : List (String × α)) (k k1 : String)
    (v : α) (h : aGet (aDel m k) k1 = some v) :
    k1 ≠ k ∧ aGet m k1 = some v := by
  by_cases hk : k1 = k
  · subst hk
    rw [aGet_aDel_self] at h
    exact Option.noConfusion h
  · rw [aGet_aDel_ne m k k1 hk] at h
    exact ⟨hk, h⟩

/-- Cancelling the mapped timer and deleting the entry preserves the
invariant: the shared conclusion of `onWillDisappear` and the unconfigured
branch of `onDidReceiveSettings`. -/
theorem inv_clearDel (st : St) (id : String) (hInv : Inv st) :
    InvP (aDel st.timers id) (clearedLive st id) st.nextHandle := by
  refine ⟨?_, ?_, ?_, ?_⟩
  · intro t ht
    have hne : t.2.1 ≠ id := cleared_no_owner st id hInv.liveMapped t ht
    rw [aGet_aDel_ne st.timers id t.2.1 hne]
    exact hInv.liveMapped t ((clearedLive_sublist st id).subset ht)
  · intro k h hk
    exact hInv.mapBound k h (aGet_aDel_cases st.timers id k h hk).2
  · intro k1 k2 h h1 h2
    exact hInv.mapInj k1 k2 h (aGet_aDel_cases st.timers id k1 h h1).2
      (aGet_aDel_cases st.timers id k2 h h2).2
  · exact hInv.liveNodup.sublist ((clearedLive_sublist st id).map _)

/-- An id showing zero active timers owns no entry of `live`. -/
theorem no_owner_of_activeFor_zero (st : St) (id : String)
    (h : activeFor st id = 0) : ∀ t ∈ st.live, t.2.1 ≠ id := by
  intro t ht hid
  unfold activeFor at h
  have : t ∈ st.live.filter (fun t => t.2.1 == id) :=
    List.mem_filter.mpr ⟨ht, by simp [hid]⟩
  rw [List.length_eq_zero.mp h] at this
  exact List.not_mem_nil t this

theorem inv_onWillAppear (st : St) (id : String) (s : ActionSettings)
    (out : FetchOutcome) (hInv : Inv st) (hpre : activeFor st id = 0) :
    Inv (onWillAppear st id s out).1 := by
  cases hres : s.resource with
  | none =>
      refine inv_of_parts st _ ?_ ?_ ?_ hInv <;>
        simp [onWillAppear, hres, applyDisplay_timers, applyDisplay_live,
          applyDisplay_nextHandle]
  | some r =>
      have hstep := inv_install st.timers st.live st.nextHandle id
        ((s.refreshInterval.getD DEFAULT_REFRESH_INTERVAL) * 1000) hInv
        (no_owner_of_activeFor_zero st id hpre)
      refine inv_of_parts ⟨aSet st.timers id st.nextHandle,
        (st.nextHandle, id,
          (s.refreshInterval.getD DEFAULT_REFRESH_INTERVAL) * 1000) ::
          st.live, st.nextHandle + 1, st.display⟩ _ ?_ ?_ ?_ hstep <;>
        simp [onWillAppear, hres, applyDisplay_timers, applyDisplay_live,
          applyDisplay_nextHandle]

theorem inv_onWillDisappear (st : St) (id : String) (hInv : Inv st) :
    Inv (onWillDisappear st id).1 := by
  refine inv_of_parts ⟨aDel st.timers id, clearedLive st id, st.nextHandle,
    st.display⟩ _ ?_ ?_ ?_ (inv_clearDel st id hInv) <;>
    simp [onWillDisappear]

theorem inv_onDidReceiveSettings (st : St) (id : String)
    (s : ActionSettings) (out : FetchOutcome) (hInv : Inv st) :
    Inv (onDidReceiveSettings st id s out).1 := by
  cases hres : s.resource with
  | none =>
      refine inv_of_parts ⟨aDel st.timers id, clearedLive st id,
        st.nextHandle, st.display⟩ _ ?_ ?_ ?_ (inv_clearDel st id hInv) <;>
        simp [onDidReceiveSettings, hres, applyDisplay_timers,
          applyDisplay_live, applyDisplay_nextHandle]
  | some r =>
      have hmid : InvP st.timers (clearedLive st id) st.nextHandle := by
        refine ⟨?_, hInv.mapBound, hInv.mapInj, ?_⟩
        · intro t ht
          exact hInv.liveMapped t ((clearedLive_sublist st id).subset ht)
        · exact hInv.liveNodup.sublist ((clearedLive_sublist st id).map _)
      have hstep := inv_install st.timers (clearedLive st id) st.nextHandle
        id ((s.refreshInterval.getD DEFAULT_REFRESH_INTERVAL) * 1000) hmid
        (cleared_no_owner st id hInv.liveMapped)
      refine inv_of_parts ⟨aSet st.timers id st.nextHandle,
        (st.nextHandle, id,
          (s.refreshInterval.getD DEFAULT_REFRESH_INTERVAL) * 1000) ::
          clearedLive st id, st.nextHandle + 1, st.display⟩ _ ?_ ?_ ?_
          hstep <;>
        simp [onDidReceiveSettings, hres, applyDisplay_timers,
          applyDisplay_live, applyDisplay_nextHandle]

theorem inv_onKeyDown (st : St) (id : String) (s : ActionSettings)
    (out : FetchOutcome) (hInv : Inv st) : Inv (onKeyDown st id s out).1 := by
  cases hres : s.resource with
  | none => simpa [onKeyDown, hres] using hInv
  | some r =>
      refine inv_of_parts st _ ?_ ?_ ?_ hInv <;>
        simp [onKeyDown, hres, applyDisplay_timers, applyDisplay_live,
          applyDisplay_nextHandle]

/-- Along host-paired call sequences the invariant is preserved. -/
theorem inv_run (cs : List Call) (st : St) (hInv : Inv st)
    (hp : pairedFrom st cs = true) : Inv (run st cs) := by
  induction cs generalizing st with
  | nil => exact hInv
  | cons c cs ih =>
      rw [pairedFrom, Bool.and_eq_true] at hp
      refine ih (step st c).1 ?_ hp.2
      cases c with
      | appear id s out =>
          have hz : activeFor st id = 0 := by
            have := hp.1
            simpa [callOk] using this
          exact inv_onWillAppear st id s out hInv hz
      | disappear id => exact inv_onWillDisappear st id hInv
      | settingsChanged id s out =>
          exact inv_onDidReceiveSettings st id s out hInv
      | keyDown id s out => exact inv_onKeyDown st id s out hInv

/-- Under the invariant, an id owns at most one running interval. -/
theorem activeFor_le_one (st : St) (id : String) (hInv : Inv st) :
    activeFor st id ≤ 1 := by
  unfold activeFor
  cases hl : st.live.filter (fun t => t.2.1 == id) with
  | nil => simp
  | cons a tl =>
      cases htl : tl with
      | nil => simp
      | cons b tl2 =>
          exfalso
          subst htl
          have hsub : List.Sublist (a :: b :: tl2) st.live := by
            rw [← hl]
            exact List.filter_sublist _
          have ha : a ∈ st.live.filter (fun t => t.2.1 == id) := by
            rw [hl]; exact List.mem_cons_self _ _
          have hb : b ∈ st.live.filter (fun t => t.2.1 == id) := by
            rw [hl]
            exact List.mem_cons_of_mem _ (List.mem_cons_self _ _)
          have haid : a.2.1 = id := by
            have := (List.mem_filter.mp ha).2
            simpa using this
          have hbid : b.2.1 = id := by
            have := (List.mem_filter.mp hb).2
            simpa using this
          have hga := hInv.liveMapped a (List.mem_filter.mp ha).1
          have hgb := hInv.liveMapped b (List.mem_filter.mp hb).1
          rw [haid] at hga
          rw [hbid] at hgb
          have hab : a.1 = b.1 := by
            rw [hga] at hgb
            exact Option.some.inj hgb
          have hnd : ((a :: b :: tl2).map (fun t => t.1)).Nodup :=
            hInv.liveNodup.sublist (hsub.map _)
          rw [List.map_cons, List.map_cons] at hnd
          have := (List.nodup_cons.mp hnd).1
          exact this (by rw [hab]; exact List.mem_cons_self _ _)

theorem foldl_updImg (b : List Ev) (acc : Option Display) :
    b.foldl updImg acc =
      match b.foldl updImg none with
      | some d => some d
      | none => acc := by
  induction b generalizing acc with
  | nil => rfl
  | cons e b ih =>
      rw [List.foldl_cons, List.foldl_cons, ih (updImg acc e),
        ih (updImg none e)]
      cases hb : b.foldl updImg none with
      | some d => rfl
      | none => cases e <;> rfl

theorem lastImage_append (a b : List Ev) :
    lastImage (a ++ b) =
      match lastImage b with
      | some d => some d
      | none => lastImage a := by
  unfold lastImage
  rw [List.foldl_append]
  exact foldl_updImg b (a.foldl updImg none)

theorem countRefreshes_append (a b : List Ev) :
    countRefreshes (a ++ b) = countRefreshes a + countRefreshes b := by
  unfold countRefreshes
  rw [List.filter_append, List.length_append]

theorem countRefreshes_refreshTrace (s : ActionSettings)
    (out : FetchOutcome) : countRefreshes (refreshTrace s out) = 1 := by
  cases out with
  | ok b => cases b <;> rfl
  | failed msg => rfl

theorem countRefreshes_clearEvs (st : St) (id : String) :
    countRefreshes (clearEvs st id) = 0 := by
  unfold clearEvs
  cases aGet st.timers id <;> rfl

theorem installsOf_append (a b : List Ev) :
    installsOf (a ++ b) = installsOf a ++ installsOf b := by
  unfold installsOf
  rw [List.filterMap_append]

theorem installsOf_refreshTrace (s : ActionSettings) (out : FetchOutcome) :
    installsOf (refreshTrace s out) = [] := by
  cases out with
  | ok b => cases b <;> rfl
  | failed msg => rfl

theorem installsOf_clearEvs (st : St) (id : String) :
    installsOf (clearEvs st id) = [] := by
  unfold clearEvs
  cases aGet st.timers id <;> rfl

theorem lastImage_refreshTrace_failed (s : ActionSettings) (msg : String) :
    lastImage (refreshTrace s (FetchOutcome.failed msg)) =
      some (Display.errorMsg msg) := rfl

/-- Claim C1 is FALSE on the code as stated: `onWillAppear` installs a new
interval timer WITHOUT cancelling the one already owned by the id (lines
55-58 have no `clearInterval`), so the two-call sequence
`onAppear("b"); onAppear("b")` leaves two running timers for `"b"`: the
first interval handle is overwritten in the map but keeps firing. -/
theorem c1_counterexample :
    ¬ activeFor (run st0 [Call.appear "b" sRes (FetchOutcome.ok true),
      Call.appear "b" sRes (FetchOutcome.ok true)]) "b" ≤ 1 := by decide

/-- Claim C1 (amended): `onWillDisappear` and `onDidReceiveSettings` cancel
the existing timer before proceeding, but `onWillAppear` installs a new
timer without cancelling; at most one active timer per instanceId holds for
every call sequence in which each `onAppear` for an id is delivered only
while no timer of that id is running (the host's appear/disappear
pairing). -/
theorem c1_timer_invariant (cs : List Call)
    (hp : pairedFrom st0 cs = true) (id : String) :
    activeFor (run st0 cs) id ≤ 1 :=
  activeFor_le_one (run st0 cs) id (inv_run cs st0 inv_st0 hp)

/-- Witness for C1: a concrete paired appear/settings/disappear/appear
sequence keeps at most one timer for `"b"`. -/
theorem c1_timer_invariant_witness :
    activeFor (run st0 [Call.appear "b" sRes (FetchOutcome.ok true),
      Call.settingsChanged "b" sRes300 (FetchOutcome.ok true),
      Call.disappear "b",
      Call.appear "b" sRes (FetchOutcome.ok true)]) "b" ≤ 1 :=
  c1_timer_invariant [Call.appear "b" sRes (FetchOutcome.ok true),
    Call.settingsChanged "b" sRes300 (FetchOutcome.ok true),
    Call.disappear "b",
    Call.appear "b" sRes (FetchOutcome.ok true)] (by decide) "b"

theorem applyDisplay_display_of_last (st : St) (id : String) (tr : List Ev)
    (d : Display) (h : lastImage tr = some d) :
    aGet (applyDisplay st id tr).display id = some d := by
  unfold applyDisplay
  rw [h]
  exact aGet_aSet_self _ _ _

/-- `onWillDisappear` on an id with no map entry does nothing: the state is
unchanged and no external call is made (lines 65-69 make `Map.get` return
`undefined`, skip `clearInterval` and run a no-op `Map.delete`). -/
theorem disappear_noop (st : St) (id : String)
    (h : aGet st.timers id = none) : onWillDisappear st id = (st, []) := by
  unfold onWillDisappear clearedLive clearEvs
  rw [h, aDel_of_get_none st.timers id h]

/-- Claim C5: `onWillDisappear` is idempotent.  Calling it for an id with
no entry leaves the state unchanged and makes no external call; calling it
twice in a row equals calling it once (the second call changes nothing and
emits nothing). -/
theorem c5_disappear_idempotent (st : St) (id : String) :
    (aGet st.timers id = none → onWillDisappear st id = (st, [])) ∧
      onWillDisappear (onWillDisappear st id).1 id =
        ((onWillDisappear st id).1, []) := by
  constructor
  · exact disappear_noop st id
  · refine disappear_noop (onWillDisappear st id).1 id ?_
    have ht : (onWillDisappear st id).1.timers = aDel st.timers id := rfl
    rw [ht]
    exact aGet_aDel_self st.timers id

/-- Witness for C5 at concrete states: on the fresh state the call is a
no-op, and after a configured appear a second disappear equals the first. -/
theorem c5_disappear_idempotent_witness :
    onWillDisappear st0 "b" = (st0, []) ∧
      onWillDisappear
        (onWillDisappear
          (run st0 [Call.appear "b" sRes (FetchOutcome.ok true)]) "b").1
        "b" =
      ((onWillDisappear
          (run st0 [Call.appear "b" sRes (FetchOutcome.ok true)]) "b").1,
        []) :=
  ⟨(c5_disappear_idempotent st0 "b").1 (by decide),
    (c5_disappear_idempotent
      (run st0 [Call.appear "b" sRes (FetchOutcome.ok true)]) "b").2⟩

/-- Claim C7 is FALSE on the code as stated ("no timer is running ...
regardless of the prior state"): after `onAppear("b", configured)` followed
by `onAppear("b", unconfigured)`, the placeholder is rendered but the timer
installed by the first call keeps running -- the unconfigured branch of
`onWillAppear` (lines 46-50) cancels nothing. -/
theorem c7_counterexample :
    aGet (run st0 [Call.appear "b" sRes (FetchOutcome.ok true),
      Call.appear "b" sNone (FetchOutcome.ok true)]).display "b" =
        some Display.unconfigured ∧
    ¬ activeFor (run st0 [Call.appear "b" sRes (FetchOutcome.ok true),
      Call.appear "b" sNone (FetchOutcome.ok true)]) "b" = 0 := by decide

/-- Claim C7 (amended): when the settings lack `resource`, `onWillAppear`
renders only the placeholder, performs no refresh, installs no timer and
leaves the timer table unchanged (but does not cancel a timer an unpaired
earlier appear may have left running); `onDidReceiveSettings` additionally
cancels the mapped timer and deletes the entry, so -- in any state where
every running timer is the one its owner's map entry points at -- no timer
of that id remains running afterwards. -/
theorem c7_unconfigured_gating (st : St) (id : String) (s : ActionSettings)
    (out : FetchOutcome) (hres : s.resource = none)
    (hlm : ∀ t ∈ st.live, aGet st.timers t.2.1 = some t.1) :
    ((onWillAppear st id s out).2 =
        [Ev.setImage Display.unconfigured, Ev.setTitle] ∧
      (onWillAppear st id s out).1.timers = st.timers ∧
      (onWillAppear st id s out).1.live = st.live ∧
      aGet (onWillAppear st id s out).1.display id =
        some Display.unconfigured) ∧
    (activeFor (onDidReceiveSettings st id s out).1 id = 0 ∧
      aGet (onDidReceiveSettings st id s out).1.timers id = none ∧
      countRefreshes (onDidReceiveSettings st id s out).2 = 0 ∧
      installsOf (onDidReceiveSettings st id s out).2 = [] ∧
      aGet (onDidReceiveSettings st id s out).1.display id =
        some Display.unconfigured) := by
  have htrA : appearTrace st s out =
      [Ev.setImage Display.unconfigured, Ev.setTitle] := by
    unfold appearTrace
    rw [hres]
  have htrD : didReceiveTrace st id s out =
      clearEvs st id ++ [Ev.setImage Display.unconfigured, Ev.setTitle] := by
    unfold didReceiveTrace
    rw [hres]
  have hlastD : lastImage (didReceiveTrace st id s out) =
      some Display.unconfigured := by
    rw [htrD, lastImage_append]
    rfl
  refine ⟨⟨?_, ?_, ?_, ?_⟩, ?_, ?_, ?_, ?_, ?_⟩
  · simp [onWillAppear, hres, htrA]
  · simp [onWillAppear, hres, applyDisplay_timers]
  · simp [onWillAppear, hres, applyDisplay_live]
  · have : (onWillAppear st id s out).1 =
        applyDisplay st id (appearTrace st s out) := by
      simp [onWillAppear, hres]
    rw [this]
    refine applyDisplay_display_of_last st id _ _ ?_
    rw [htrA]
    rfl
  · have : (onDidReceiveSettings st id s out).1.live = clearedLive st id := by
      simp [onDidReceiveSettings, hres, applyDisplay_live]
    unfold activeFor
    rw [this]
    have hnil : (clearedLive st id).filter (fun t => t.2.1 == id) = [] := by
      refine List.filter_eq_nil_iff.mpr ?_
      intro t ht
      simp
      exact cleared_no_owner st id hlm t ht
    rw [hnil]
    rfl
  · have : (onDidReceiveSettings st id s out).1.timers =
        aDel st.timers id := by
      simp [onDidReceiveSettings, hres, applyDisplay_timers]
    rw [this]
    exact aGet_aDel_self st.timers id
  · have : (onDidReceiveSettings st id s out).2 =
        didReceiveTrace st id s out := by
      simp [onDidReceiveSettings, hres]
    rw [this, htrD, countRefreshes_append, countRefreshes_clearEvs]
    rfl
  · have : (onDidReceiveSettings st id s out).2 =
        didReceiveTrace st id s out := by
      simp [onDidReceiveSettings, hres]
    rw [this, htrD, installsOf_append, installsOf_clearEvs]
    rfl
  · have : (onDidReceiveSettings st id s out).1 =
        applyDisplay
          { st with timers := aDel st.timers id,
                    live := clearedLive st id } id
          (didReceiveTrace st id s out) := by
      simp [onDidReceiveSettings, hres]
    rw [this]
    exact applyDisplay_display_of_last _ id _ _ hlastD

/-- Witness for C7: after a configured appear of `"b"`, a settings change
without `resource` leaves zero running timers, no map entry and the
placeholder displayed. -/
theorem c7_unconfigured_gating_witness :
    activeFor (onDidReceiveSettings
      (run st0 [Call.appear "b" sRes (FetchOutcome.ok true)]) "b" sNone
      (FetchOutcome.ok true)).1 "b" = 0 ∧
    aGet (onDidReceiveSettings
      (run st0 [Call.appear "b" sRes (FetchOutcome.ok true)]) "b" sNone
      (FetchOutcome.ok true)).1.display "b" = some Display.unconfigured :=
  ⟨(c7_unconfigured_gating
      (run st0 [Call.appear "b" sRes (FetchOutcome.ok true)]) "b" sNone
      (FetchOutcome.ok true) (by decide) (by decide)).2.1,
    (c7_unconfigured_gating
      (run st0 [Call.appear "b" sRes (FetchOutcome.ok true)]) "b" sNone
      (FetchOutcome.ok true) (by decide) (by decide)).2.2.2.2.2⟩

/-- Claim C8: `onWillAppear` with a resource performs exactly one immediate
refresh and installs exactly one repeating timer, whose period is
`refreshInterval * 1000` ms -- i.e. `refreshInterval` seconds -- with the
documented default `DEFAULT_REFRESH_INTERVAL = 300` when unset
(lines 52-58). -/
theorem c8_appear_refresh_and_timer (st : St) (id : String)
    (s : ActionSettings) (out : FetchOutcome) (r : String)
    (hres : s.resource = some r) :
    (onWillAppear st id s out).2 =
      refreshTrace s out ++
        [Ev.setIntervalEv st.nextHandle
          ((s.refreshInterval.getD DEFAULT_REFRESH_INTERVAL) * 1000)] ∧
    countRefreshes (onWillAppear st id s out).2 = 1 ∧
    installsOf (onWillAppear st id s out).2 =
      [(st.nextHandle,
        (s.refreshInterval.getD DEFAULT_REFRESH_INTERVAL) * 1000)] ∧
    aGet (onWillAppear st id s out).1.timers id = some st.nextHandle := by
  have htr : (onWillAppear st id s out).2 =
      refreshTrace s out ++
        [Ev.setIntervalEv st.nextHandle
          ((s.refreshInterval.getD DEFAULT_REFRESH_INTERVAL) * 1000)] := by
    simp [onWillAppear, appearTrace, hres]
  refine ⟨htr, ?_, ?_, ?_⟩
  · rw [htr, countRefreshes_append, countRefreshes_refreshTrace]
    rfl
  · rw [htr, installsOf_append, installsOf_refreshTrace]
    rfl
  · have : (onWillAppear st id s out).1.timers =
        aSet st.timers id st.nextHandle := by
      simp [onWillAppear, hres, applyDisplay_timers]
    rw [this]
    exact aGet_aSet_self _ _ _

/-- Witness for C8: with `refreshInterval = 60` the installed period is
60000 ms; with it unset the period is the default 300000 ms; one refresh
each time. -/
theorem c8_appear_refresh_and_timer_witness :
    installsOf (onWillAppear st0 "b" sRes (FetchOutcome.ok true)).2 =
      [(0, 60000)] ∧
    installsOf (onWillAppear st0 "b" sRes300 (FetchOutcome.ok true)).2 =
      [(0, 300000)] ∧
    countRefreshes (onWillAppear st0 "b" sRes (FetchOutcome.ok true)).2 =
      1 :=
  ⟨(c8_appear_refresh_and_timer st0 "b" sRes (FetchOutcome.ok true) "x"
      rfl).2.2.1,
    (c8_appear_refresh_and_timer st0 "b" sRes300 (FetchOutcome.ok true) "x"
      rfl).2.2.1,
    (c8_appear_refresh_and_timer st0 "b" sRes (FetchOutcome.ok true) "x"
      rfl).2.1⟩

theorem lastImage_append_some (a b : List Ev) (d : Display)
    (hb : lastImage b = some d) : lastImage (a ++ b) = some d := by
  rw [lastImage_append, hb]

theorem lastImage_append_none (a b : List Ev)
    (hb : lastImage b = none) : lastImage (a ++ b) = lastImage a := by
  rw [lastImage_append, hb]

theorem lastImage_install (h p : Nat) :
    lastImage [Ev.setIntervalEv h p] = none := rfl

/-- Claim C6 is FALSE on the code: re-delivering the very settings the
instance already runs with (the shape of a write echo) still cancels the
timer, runs a full refresh and installs a fresh interval --
`onDidReceiveSettings` (lines 84-105) has no `pendingWriteMarker` check
(and the class initiates no settings write at all). -/
theorem c6_counterexample :
    countRefreshes (onDidReceiveSettings
      (run st0 [Call.appear "b" sRes (FetchOutcome.ok true)]) "b" sRes
      (FetchOutcome.ok true)).2 = 1 ∧
    ¬ countRefreshes (onDidReceiveSettings
      (run st0 [Call.appear "b" sRes (FetchOutcome.ok true)]) "b" sRes
      (FetchOutcome.ok true)).2 = 0 ∧
    installsOf (onDidReceiveSettings
      (run st0 [Call.appear "b" sRes (FetchOutcome.ok true)]) "b" sRes
      (FetchOutcome.ok true)).2 = [(1, 60000)] ∧
    (onDidReceiveSettings
      (run st0 [Call.appear "b" sRes (FetchOutcome.ok true)]) "b" sRes
      (FetchOutcome.ok true)).2.head? = some (Ev.clearIntervalEv 0) := by
  decide

/-- Claim C6 (amended): the scaffold has no `pendingWriteMarker` and never
writes settings itself; every `onDidReceiveSettings` whose payload carries
a resource -- including one whose content matches what the instance already
uses -- cancels the mapped timer, performs a refresh cycle, and installs a
fresh interval with a new handle. -/
theorem c6_no_echo_suppression (st : St) (id : String) (s : ActionSettings)
    (out : FetchOutcome) (r : String) (h0 : Nat)
    (hres : s.resource = some r) (hmap : aGet st.timers id = some h0)
    (hb : ∀ p ∈ st.timers, p.2 < st.nextHandle) :
    (onDidReceiveSettings st id s out).2 =
      Ev.clearIntervalEv h0 ::
        (refreshTrace s out ++
          [Ev.setIntervalEv st.nextHandle
            ((s.refreshInterval.getD DEFAULT_REFRESH_INTERVAL) * 1000)]) ∧
    countRefreshes (onDidReceiveSettings st id s out).2 = 1 ∧
    aGet (onDidReceiveSettings st id s out).1.timers id =
      some st.nextHandle ∧
    st.nextHandle ≠ h0 := by
  have hce : clearEvs st id = [Ev.clearIntervalEv h0] := by
    unfold clearEvs
    rw [hmap]
  have htr : (onDidReceiveSettings st id s out).2 =
      Ev.clearIntervalEv h0 ::
        (refreshTrace s out ++
          [Ev.setIntervalEv st.nextHandle
            ((s.refreshInterval.getD DEFAULT_REFRESH_INTERVAL) * 1000)]) := by
    simp [onDidReceiveSettings, didReceiveTrace, hres, hce]
  refine ⟨htr, ?_, ?_, ?_⟩
  · rw [htr]
    have : countRefreshes (Ev.clearIntervalEv h0 ::
        (refreshTrace s out ++
          [Ev.setIntervalEv st.nextHandle
            ((s.refreshInterval.getD DEFAULT_REFRESH_INTERVAL) * 1000)])) =
        countRefreshes ([Ev.clearIntervalEv h0] ++
          (refreshTrace s out ++
            [Ev.setIntervalEv st.nextHandle
              ((s.refreshInterval.getD DEFAULT_REFRESH_INTERVAL) * 1000)])) :=
      rfl
    rw [this, countRefreshes_append, countRefreshes_append,
      countRefreshes_refreshTrace]
    rfl
  · have : (onDidReceiveSettings st id s out).1.timers =
        aSet st.timers id st.nextHandle := by
      simp [onDidReceiveSettings, hres, applyDisplay_timers]
    rw [this]
    exact aGet_aSet_self _ _ _
  · have hlt : h0 < st.nextHandle := hb (id, h0) (aGet_mem st.timers id h0 hmap)
    omega

/-- Witness for C6: in the state after a configured appear, re-delivering
the same settings clears handle 0, refreshes once and installs handle 1. -/
theorem c6_no_echo_suppression_witness :
    countRefreshes (onDidReceiveSettings
      (run st0 [Call.appear "b" sRes300 (FetchOutcome.ok true)]) "b" sRes300
      (FetchOutcome.ok true)).2 = 1 ∧
    aGet (onDidReceiveSettings
      (run st0 [Call.appear "b" sRes300 (FetchOutcome.ok true)]) "b" sRes300
      (FetchOutcome.ok true)).1.timers "b" = some 1 :=
  ⟨(c6_no_echo_suppression
      (run st0 [Call.appear "b" sRes300 (FetchOutcome.ok true)]) "b" sRes300
      (FetchOutcome.ok true) "x" 0 rfl (by decide) (by decide)).2.1,
    (c6_no_echo_suppression
      (run st0 [Call.appear "b" sRes300 (FetchOutcome.ok true)]) "b" sRes300
      (FetchOutcome.ok true) "x" 0 rfl (by decide) (by decide)).2.2.1⟩

/-- Key-wise merge of the `extra` keys, payload keys winning. -/
def mergeExtra (s p : List (String × String)) : List (String × String) :=
  p ++ s.filter (fun kv => (aGet p kv.1).isNone)

/-- Modelled from the spec: the settings the claim says
`onDidReceiveSettings` should cache -- the key-wise merge
`mergeSpread s p` of payload `p` over previous settings `s`, keys present
in `p` winning and keys absent from `p` retaining their previous value.
Stated only for comparison: the code keeps no settings cache and performs
no merge. -/
def specMerge (s p : ActionSettings) : ActionSettings :=
  ⟨p.resource.or s.resource, p.refreshInterval.or s.refreshInterval,
    mergeExtra s.extra p.extra⟩

/-- Claim C9 is FALSE on the code: apply a payload with no `resource` key
to an instance whose previous settings had `resource = "x"`.  The claimed
merged settings still carry `resource = "x"`, so the instance would stay
configured and keep polling; the code instead acts on the payload alone
(line 89 reads only `ev.payload.settings`), renders the unconfigured
placeholder and drops the timer -- the key absent from the payload did not
retain its previous value. -/
theorem c9_counterexample :
    (specMerge sExtra sNone).resource = some "x" ∧
    aGet (run st0 [Call.appear "b" sExtra (FetchOutcome.ok true),
      Call.settingsChanged "b" sNone (FetchOutcome.ok true)]).display "b" =
        some Display.unconfigured ∧
    aGet (run st0 [Call.appear "b" sExtra (FetchOutcome.ok true),
      Call.settingsChanged "b" sNone (FetchOutcome.ok true)]).timers "b" =
        none ∧
    activeFor (run st0 [Call.appear "b" sExtra (FetchOutcome.ok true),
      Call.settingsChanged "b" sNone (FetchOutcome.ok true)]) "b" = 0 := by
  decide

/-- Claim C9 (amended): `onDidReceiveSettings` performs no merge and the
class caches no settings: its behaviour is a function of the delivered
payload alone (plus the id's current timer handle and the fresh-handle
counter) -- two states reached with arbitrarily different previous
settings produce the identical call trace for the same payload. -/
theorem c9_no_merge_payload_only (st1 st2 : St) (id : String)
    (p : ActionSettings) (out : FetchOutcome)
    (ht : aGet st1.timers id = aGet st2.timers id)
    (hn : st1.nextHandle = st2.nextHandle) :
    (onDidReceiveSettings st1 id p out).2 =
      (onDidReceiveSettings st2 id p out).2 := by
  have hce : clearEvs st1 id = clearEvs st2 id := by
    unfold clearEvs
    rw [ht]
  have h1 : (onDidReceiveSettings st1 id p out).2 =
      didReceiveTrace st1 id p out := by
    cases hres : p.resource <;> simp [onDidReceiveSettings, hres]
  have h2 : (onDidReceiveSettings st2 id p out).2 =
      didReceiveTrace st2 id p out := by
    cases hres : p.resource <;> simp [onDidReceiveSettings, hres]
  rw [h1, h2]
  unfold didReceiveTrace
  rw [hce, hn]

/-- Witness for C9: two states whose instances appeared with different
settings (`sRes` vs `sExtra`) give the same trace for the same payload. -/
theorem c9_no_merge_payload_only_witness :
    (onDidReceiveSettings
      (run st0 [Call.appear "b" sRes (FetchOutcome.ok true)]) "b" sRes300
      (FetchOutcome.ok true)).2 =
    (onDidReceiveSettings
      (run st0 [Call.appear "b" sExtra (FetchOutcome.ok true)]) "b" sRes300
      (FetchOutcome.ok true)).2 :=
  c9_no_merge_payload_only
    (run st0 [Call.appear "b" sRes (FetchOutcome.ok true)])
    (run st0 [Call.appear "b" sExtra (FetchOutcome.ok true)]) "b" sRes300
    (FetchOutcome.ok true) (by decide) (by decide)

/-- Claim C3 is FALSE on the code: after a successful refresh displayed
`keyImage "x"` (a cached good result in the claim's sense), a failing
refresh replaces it with the error image -- the catch block (lines
138-142) renders `renderErrorImage` unconditionally; no previous good
display is preserved. -/
theorem c3_counterexample :
    aGet (run st0
      [Call.appear "b" sRes (FetchOutcome.ok true)]).display "b" =
        some (Display.keyImage (some "x")) ∧
    aGet (run st0 [Call.appear "b" sRes (FetchOutcome.ok true),
      Call.keyDown "b" sRes
        (FetchOutcome.failed "Network error")]).display "b" =
      some (Display.errorMsg "Network error") ∧
    ¬ aGet (run st0 [Call.appear "b" sRes (FetchOutcome.ok true),
      Call.keyDown "b" sRes
        (FetchOutcome.failed "Network error")]).display "b" =
      some (Display.keyImage (some "x")) := by decide

/-- Claim C3 (amended): on a failing refresh the scaffold always renders
the explicit error state with the error's message; it caches no previous
good result, so whatever was displayed before -- in any prior state -- is
replaced, both on a key press and on a settings change. -/
theorem c3_error_always_rendered (st : St) (id : String)
    (s : ActionSettings) (msg : String) (r : String)
    (hres : s.resource = some r) :
    aGet (onKeyDown st id s (FetchOutcome.failed msg)).1.display id =
      some (Display.errorMsg msg) ∧
    aGet (onDidReceiveSettings st id s
      (FetchOutcome.failed msg)).1.display id =
      some (Display.errorMsg msg) := by
  constructor
  · have h1 : (onKeyDown st id s (FetchOutcome.failed msg)).1 =
        applyDisplay st id (refreshTrace s (FetchOutcome.failed msg)) := by
      simp [onKeyDown, hres]
    rw [h1]
    exact applyDisplay_display_of_last st id _ _
      (lastImage_refreshTrace_failed s msg)
  · have hform : didReceiveTrace st id s (FetchOutcome.failed msg) =
        clearEvs st id ++
          (refreshTrace s (FetchOutcome.failed msg) ++
            [Ev.setIntervalEv st.nextHandle
              ((s.refreshInterval.getD DEFAULT_REFRESH_INTERVAL) * 1000)]) := by
      simp [didReceiveTrace, hres]
    have hlast : lastImage (didReceiveTrace st id s
        (FetchOutcome.failed msg)) = some (Display.errorMsg msg) := by
      rw [hform]
      refine lastImage_append_some _ _ _ ?_
      rw [lastImage_append_none _ _ (lastImage_install _ _)]
      exact lastImage_refreshTrace_failed s msg
    have h1 : (onDidReceiveSettings st id s (FetchOutcome.failed msg)).1 =
        applyDisplay
          { st with timers := aSet st.timers id st.nextHandle,
                    live := (st.nextHandle, id,
                      (s.refreshInterval.getD DEFAULT_REFRESH_INTERVAL) *
                        1000) :: clearedLive st id,
                    nextHandle := st.nextHandle + 1 } id
          (didReceiveTrace st id s (FetchOutcome.failed msg)) := by
      simp [onDidReceiveSettings, hres]
    rw [h1]
    exact applyDisplay_display_of_last _ id _ _ hlast

/-- Witness for C3: in the state already displaying the good value, a
failing key-press refresh displays the error message. -/
theorem c3_error_always_rendered_witness :
    aGet (onKeyDown (run st0 [Call.appear "b" sRes (FetchOutcome.ok true)])
      "b" sRes (FetchOutcome.failed "Network error")).1.display "b" =
      some (Display.errorMsg "Network error") :=
  (c3_error_always_rendered
    (run st0 [Call.appear "b" sRes (FetchOutcome.ok true)]) "b" sRes
    "Network error" "x" rfl).1

/-
Interleaving model for overlapping refresh cycles.  `refresh` suspends at
every `await`; the event loop may resume the pending continuations of two
cycles for the same instance in any order, so the possible executions are
exactly the order-preserving interleavings of the two cycles' own display
writes.  The code checks nothing before writing, so every cycle performs
all of its writes in every interleaving.
-/

/-- The display writes one refresh cycle performs, in program order,
tagged with a cycle identifier. -/
def cycleWrites (cid : Nat) (s : ActionSettings) (out : FetchOutcome) :
    List (Nat × Display) :=
  (refreshTrace s out).filterMap (fun e =>
    match e with
    | Ev.setImage d => some (cid, d)
    | _ => none)

/-- Order-preserving interleavings of two lists. -/
inductive Shuffle {α : Type} : List α → List α → List α → Prop where
  | nil : Shuffle [] [] []
  | left (x : α) (h : Shuffle xs ys zs) : Shuffle (x :: xs) ys (x :: zs)
  | right (y : α) (h : Shuffle xs ys zs) : Shuffle xs (y :: ys) (y :: zs)

theorem shuffle_mem_left {α : Type} {xs ys zs : List α}
    (h : Shuffle xs ys zs) : ∀ a ∈ xs, a ∈ zs := by
  induction h with
  | nil => intro a ha; exact ha
  | left x h ih =>
      intro a ha
      rcases List.mem_cons.mp ha with heq | hmem
      · exact heq ▸ List.mem_cons_self _ _
      · exact List.mem_cons_of_mem _ (ih a hmem)
  | right y h ih =>
      intro a ha
      exact List.mem_cons_of_mem _ (ih a ha)

theorem mem_of_getLast? {α : Type} (l : List α) (a : α)
    (h : l.getLast? = some a) : a ∈ l := by
  induction l with
  | nil => exact Option.noConfusion h
  | cons x xs ih =>
      cases xs with
      | nil =>
          have : x = a := Option.some.inj h
          exact this ▸ List.mem_cons_self _ _
      | cons y ys =>
          rw [List.getLast?_cons_cons] at h
          exact List.mem_cons_of_mem _ (ih h)

/-- Settings of the older of two racing refresh cycles. -/
def sOld : ActionSettings := ⟨some "old", none, []⟩

/-- Settings of the newer of two racing refresh cycles. -/
def sNew : ActionSettings := ⟨some "new", none, []⟩

/-- A possible execution: cycle 0 starts first (its loading write is
first), cycle 1 then runs to completion, and cycle 0's final display write
lands last. -/
def staleTrace : List (Nat × Display) :=
  [(0, Display.loading), (1, Display.loading),
   (1, Display.keyImage (some "new")), (0, Display.keyImage (some "old"))]

theorem shuffle_stale :
    Shuffle (cycleWrites 0 sOld (FetchOutcome.ok true))
      (cycleWrites 1 sNew (FetchOutcome.ok true)) staleTrace := by
  have h1 : cycleWrites 0 sOld (FetchOutcome.ok true) =
      [(0, Display.loading), (0, Display.keyImage (some "old"))] := by decide
  have h2 : cycleWrites 1 sNew (FetchOutcome.ok true) =
      [(1, Display.loading), (1, Display.keyImage (some "new"))] := by decide
  rw [h1, h2]
  exact Shuffle.left _ (Shuffle.right _ (Shuffle.right _
    (Shuffle.left _ Shuffle.nil)))

/-- Claim C2 is FALSE on the code: no `refreshGeneration` exists (lines
110-143 keep no counter and perform no post-await check), so in the
interleaving in which the newer cycle 1 starts after cycle 0 and completes
before it (`staleTrace.take 3`), cycle 0 still performs its display update
on completion -- its stale write is even the last one, winning the
display. -/
theorem c2_counterexample :
    Shuffle (cycleWrites 0 sOld (FetchOutcome.ok true))
      (cycleWrites 1 sNew (FetchOutcome.ok true)) staleTrace ∧
    staleTrace.take 3 = [(0, Display.loading), (1, Display.loading),
      (1, Display.keyImage (some "new"))] ∧
    staleTrace.getLast? = some (0, Display.keyImage (some "old")) :=
  ⟨shuffle_stale, by decide, by decide⟩

/-- Claim C2 (amended): the scaffold maintains no refresh generation and
suppresses nothing: in EVERY interleaving of two refresh cycles for the
same instance, the older cycle performs all of its display writes --
including its completion write -- no matter what the newer cycle did in
between; whichever write happens to land last wins the display. -/
theorem c2_no_stale_discard (s1 s2 : ActionSettings)
    (o1 o2 : FetchOutcome) (tr : List (Nat × Display))
    (h : Shuffle (cycleWrites 0 s1 o1) (cycleWrites 1 s2 o2) tr)
    (w : Nat × Display) (hw : (cycleWrites 0 s1 o1).getLast? = some w) :
    w ∈ tr :=
  shuffle_mem_left h w (mem_of_getLast? _ w hw)

/-- Witness for C2: in the concrete stale interleaving, the older cycle's
completion write is present. -/
theorem c2_no_stale_discard_witness :
    (0, Display.keyImage (some "old")) ∈ staleTrace :=
  c2_no_stale_discard sOld sNew (FetchOutcome.ok true)
    (FetchOutcome.ok true) staleTrace shuffle_stale
    (0, Display.keyImage (some "old")) (by decide)

/-
Exception model for C4.  Each awaited external call either resolves or
rejects; `Res` is the handler's own outcome: `ok` means the async handler
returns normally, `err` means a rejection escaped to the host runtime.
The try block of `refresh` covers lines 118-137 only; the initial loading
render (lines 114-115), the unconfigured renders in the handlers, and the
catch block's own render are outside any try.
-/

/-- Outcome of an async operation: resolved, or rejected with a message. -/
inductive Res (α : Type) where
  | ok (a : α)
  | err (msg : String)
  deriving DecidableEq

/-- Sequencing of awaited calls: a rejection short-circuits (propagates). -/
def andThenR {α β : Type} (x : Res α) (f : α → Res β) : Res β :=
  match x with
  | Res.ok a => f a
  | Res.err m => Res.err m

/-- Environment fixing the outcome of each external call: whether
`setImage` resolves for a given image, whether `setTitle` resolves, and
how `getGlobalSettings` resolves (`ok b` = resolved, `b` = token present;
`err` = rejected). -/
structure RefreshEnv where
  imgOk : Display → Bool
  titleOk : Bool
  globalApi : Res Bool

def setImageE (env : RefreshEnv) (d : Display) : Res Unit :=
  if env.imgOk d then Res.ok () else Res.err "setImage rejected"

def setTitleE (env : RefreshEnv) : Res Unit :=
  if env.titleOk then Res.ok () else Res.err "setTitle rejected"

/-- The try block of `refresh` (lines 118-137): global-settings read,
token check with its error render, then the key-image render. -/
def tryBlockE (env : RefreshEnv) (s : ActionSettings) : Res Unit :=
  andThenR env.globalApi (fun hasToken =>
    if hasToken then
      andThenR (setImageE env (Display.keyImage s.resource))
        (fun _ => setTitleE env)
    else
      andThenR (setImageE env Display.errorNoToken)
        (fun _ => setTitleE env))

/-- `refresh` (lines 110-143): loading render outside the try, the try
block, and the catch block whose own error render may itself reject. -/
def refreshE (env : RefreshEnv) (s : ActionSettings) : Res Unit :=
  andThenR (setImageE env Display.loading) (fun _ =>
    andThenR (setTitleE env) (fun _ =>
      match tryBlockE env s with
      | Res.ok _ => Res.ok ()
      | Res.err m =>
          andThenR (setImageE env (Display.errorMsg m))
            (fun _ => setTitleE env)))

/-- `onWillAppear` outcome (the timer installation itself cannot reject). -/
def onWillAppearE (env : RefreshEnv) (s : ActionSettings) : Res Unit :=
  match s.resource with
  | none =>
      andThenR (setImageE env Display.unconfigured) (fun _ => setTitleE env)
  | some _ => refreshE env s

/-- `onKeyDown` outcome. -/
def onKeyDownE (env : RefreshEnv) (s : ActionSettings) : Res Unit :=
  match s.resource with
  | none => Res.ok ()
  | some _ => refreshE env s

/-- `onDidReceiveSettings` outcome. -/
def onDidReceiveSettingsE (env : RefreshEnv) (s : ActionSettings) :
    Res Unit :=
  match s.resource with
  | none =>
      andThenR (setImageE env Display.unconfigured) (fun _ => setTitleE env)
  | some _ => refreshE env s

/-- `onWillDisappear` outcome: it awaits nothing. -/
def onWillDisappearE : Res Unit := Res.ok ()

/-- Environment in which every display update rejects (e.g. the host
connection dropped) while the global-settings read resolves fine. -/
def envBad : RefreshEnv := ⟨fun _ => false, true, Res.ok true⟩

/-- Claim C4 is FALSE on the code: the initial loading render of `refresh`
(line 114) sits OUTSIDE the try block, so when `setImage` rejects, the
rejection propagates out of `onWillAppear`, `onKeyDown` and
`onDidReceiveSettings` to the host runtime instead of becoming a display
state. -/
theorem c4_counterexample :
    onWillAppearE envBad sRes = Res.err "setImage rejected" ∧
    ¬ onWillAppearE envBad sRes = Res.ok () ∧
    ¬ onKeyDownE envBad sRes = Res.ok () ∧
    ¬ onDidReceiveSettingsE envBad sRes = Res.ok () := by decide

/-- Claim C4 (amended): failures of the global-settings read (the fallible
call inside the try block) never escape: whenever the display updates
themselves resolve, all four lifecycle handlers return normally for EVERY
outcome of `getGlobalSettings` -- resolved with a token, resolved without
one, or rejected.  Only a rejecting display update can escape. -/
theorem c4_no_escape_if_display_ok (env : RefreshEnv) (s : ActionSettings)
    (himg : ∀ d, env.imgOk d = true) (htitle : env.titleOk = true) :
    onWillAppearE env s = Res.ok () ∧ onKeyDownE env s = Res.ok () ∧
    onDidReceiveSettingsE env s = Res.ok () ∧
    onWillDisappearE = Res.ok () := by
  have hr : refreshE env s = Res.ok () := by
    cases hga : env.globalApi with
    | ok b =>
        cases b <;>
          simp [refreshE, tryBlockE, andThenR, setImageE, setTitleE, himg,
            htitle, hga]
    | err m =>
        simp [refreshE, tryBlockE, andThenR, setImageE, setTitleE, himg,
          htitle, hga]
  refine ⟨?_, ?_, ?_, rfl⟩ <;> cases hres : s.resource <;>
    simp [onWillAppearE, onKeyDownE, onDidReceiveSettingsE, andThenR,
      setImageE, setTitleE, himg, htitle, hr, hres]

/-- Witness for C4: with all display updates resolving and the
global-settings read rejecting with a network error, every handler still
returns normally. -/
theorem c4_no_escape_if_display_ok_witness :
    onWillAppearE ⟨fun _ => true, true, Res.err "Network error"⟩ sRes =
      Res.ok () ∧
    onDidReceiveSettingsE ⟨fun _ => true, true, Res.err "Network error"⟩
      sRes = Res.ok () :=
  ⟨(c4_no_escape_if_display_ok
      ⟨fun _ => true, true, Res.err "Network error"⟩ sRes (fun _ => rfl)
      rfl).1,
    (c4_no_escape_if_display_ok
      ⟨fun _ => true, true, Res.err "Network error"⟩ sRes (fun _ => rfl)
      rfl).2.2.1⟩

/-
`escapeXml` (src/scaffold/src/utils/button-renderer.ts lines 48-55):
five chained global single-character replaces, `&` first.  Strings are
modelled as lists of characters; `String.prototype.replace` with a global
single-character pattern replaces every occurrence left to right.
-/

/-- The double-quote character (code point 34). -/
def quoteChar : Char := Char.ofNat 34

/-- The apostrophe character (code point 39). -/
def aposChar : Char := Char.ofNat 39

/-- The characters of the replacement entity for each escaped character. -/
def escAmp : List Char := ['&', 'a', 'm', 'p', ';']

/-- Entity replacing a less-than sign. -/
def escLt : List Char := ['&', 'l', 't', ';']

/-- Entity replacing a greater-than sign. -/
def escGt : List Char := ['&', 'g', 't', ';']

/-- Entity replacing a double quote. -/
def escQuot : List Char := ['&', 'q', 'u', 'o', 't', ';']

/-- Entity replacing an apostrophe. -/
def escApos : List Char := ['&', 'a', 'p', 'o', 's', ';']

/-- Global replace of one character by a string. -/
def replaceChar (c : Char) (rep : List Char) : List Char → List Char
  | [] => []
  | d :: rest => (if d = c then rep else [d]) ++ replaceChar c rep rest

/-- `escapeXml`: the five replaces applied in source order -- `&` first,
then `<`, `>`, the double quote and the apostrophe. -/
def escapeXml (s : List Char) : List Char :=
  replaceChar aposChar escApos
    (replaceChar quoteChar escQuot
      (replaceChar '>' escGt
        (replaceChar '<' escLt
          (replaceChar '&' escAmp s))))

theorem replaceChar_append (c : Char) (rep : List Char)
    (a b : List Char) : replaceChar c rep (a ++ b) =
      replaceChar c rep a ++ replaceChar c rep b := by
  induction a with
  | nil => rfl
  | cons d a ih => simp [replaceChar, ih]

theorem escapeXml_append (a b : List Char) :
    escapeXml (a ++ b) = escapeXml a ++ escapeXml b := by
  simp [escapeXml, replaceChar_append]

theorem escapeXml_cons (c : Char) (s : List Char) :
    escapeXml (c :: s) = escapeXml [c] ++ escapeXml s := by
  have h : c :: s = [c] ++ s := rfl
  rw [h, escapeXml_append]

theorem escapeXml_amp : escapeXml ['&'] = escAmp := by decide

theorem escapeXml_lt : escapeXml ['<'] = escLt := by decide

theorem escapeXml_gt : escapeXml ['>'] = escGt := by decide

theorem escapeXml_quot : escapeXml [quoteChar] = escQuot := by decide

theorem escapeXml_apos : escapeXml [aposChar] = escApos := by decide

theorem escapeXml_other (c : Char) (h1 : c ≠ '&') (h2 : c ≠ '<')
    (h3 : c ≠ '>') (h4 : c ≠ quoteChar) (h5 : c ≠ aposChar) :
    escapeXml [c] = [c] := by
  simp [escapeXml, replaceChar, h1, h2, h3, h4, h5]

/-- A character that must not appear raw in escaped output. -/
def isBad (c : Char) : Bool :=
  c == '<' || c == '>' || c == quoteChar || c == aposChar

theorem isBad_false_of_ne (d : Char) (h2 : d ≠ '<') (h3 : d ≠ '>')
    (h4 : d ≠ quoteChar) (h5 : d ≠ aposChar) : isBad d = false := by
  simp [isBad, Bool.or_eq_false_iff, beq_eq_false_iff_ne]
  exact ⟨⟨⟨h2, h3⟩, h4⟩, h5⟩

theorem escapeXml_no_raw (s : List Char) :
    ∀ c ∈ escapeXml s, isBad c = false := by
  induction s with
  | nil =>
      intro c hc
      rw [show escapeXml [] = [] from rfl] at hc
      exact absurd hc (List.not_mem_nil c)
  | cons d s ih =>
      intro c hc
      rw [escapeXml_cons] at hc
      rcases List.mem_append.mp hc with h | h
      · by_cases h1 : d = '&'
        · subst h1
          rw [escapeXml_amp] at h
          exact (by decide : ∀ x ∈ escAmp, isBad x = false) c h
        · by_cases h2 : d = '<'
          · subst h2
            rw [escapeXml_lt] at h
            exact (by decide : ∀ x ∈ escLt, isBad x = false) c h
          · by_cases h3 : d = '>'
            · subst h3
              rw [escapeXml_gt] at h
              exact (by decide : ∀ x ∈ escGt, isBad x = false) c h
            · by_cases h4 : d = quoteChar
              · subst h4
                rw [escapeXml_quot] at h
                exact (by decide : ∀ x ∈ escQuot, isBad x = false) c h
              · by_cases h5 : d = aposChar
                · subst h5
                  rw [escapeXml_apos] at h
                  exact (by decide : ∀ x ∈ escApos, isBad x = false) c h
                · rw [escapeXml_other d h1 h2 h3 h4 h5] at h
                  have hcd : c = d := List.mem_singleton.mp h
                  subst hcd
                  exact isBad_false_of_ne c h2 h3 h4 h5
      · exact ih c h

/-- `e` is a prefix of `l`. -/
def entityPrefixOf (e l : List Char) : Prop := ∃ t, e ++ t = l

/-- One of the five entities starts at the head of `l`. -/
def entityAt (l : List Char) : Prop :=
  entityPrefixOf escAmp l ∨ entityPrefixOf escLt l ∨
    entityPrefixOf escGt l ∨ entityPrefixOf escQuot l ∨
    entityPrefixOf escApos l

/-- Every ampersand in `l` starts one of the five entities. -/
def GoodAmp (l : List Char) : Prop :=
  ∀ i : Nat, (l.drop i).head? = some '&' → entityAt (l.drop i)

theorem goodAmp_nil : GoodAmp [] := by
  intro i h
  rw [List.drop_nil] at h
  exact Option.noConfusion h

theorem goodAmp_cons_safe (c : Char) (l : List Char) (hc : c ≠ '&')
    (hl : GoodAmp l) : GoodAmp (c :: l) := by
  intro i h
  cases i with
  | zero =>
      rw [List.drop_zero] at h ⊢
      simp [List.head?] at h
      exact absurd h hc
  | succ j =>
      rw [List.drop_succ_cons] at h ⊢
      exact hl j h

theorem goodAmp_append_safe (cs rest : List Char)
    (hcs : ∀ c ∈ cs, c ≠ '&') (hr : GoodAmp rest) :
    GoodAmp (cs ++ rest) := by
  induction cs with
  | nil => simpa using hr
  | cons c cs ih =>
      rw [List.cons_append]
      exact goodAmp_cons_safe c _ (hcs c (List.mem_cons_self _ _))
        (ih (fun x hx => hcs x (List.mem_cons_of_mem _ hx)))

theorem goodAmp_escAmp (rest : List Char) (hr : GoodAmp rest) :
    GoodAmp (escAmp ++ rest) := by
  intro i h
  cases i with
  | zero =>
      rw [List.drop_zero] at h ⊢
      exact Or.inl ⟨rest, rfl⟩
  | succ j =>
      have hform : escAmp ++ rest = '&' :: (['a', 'm', 'p', ';'] ++ rest) :=
        rfl
      rw [hform, List.drop_succ_cons] at h ⊢
      exact goodAmp_append_safe ['a', 'm', 'p', ';'] rest (by decide) hr j h

theorem goodAmp_escLt (rest : List Char) (hr : GoodAmp rest) :
    GoodAmp (escLt ++ rest) := by
  intro i h
  cases i with
  | zero =>
      rw [List.drop_zero] at h ⊢
      exact Or.inr (Or.inl ⟨rest, rfl⟩)
  | succ j =>
      have hform : escLt ++ rest = '&' :: (['l', 't', ';'] ++ rest) := rfl
      rw [hform, List.drop_succ_cons] at h ⊢
      exact goodAmp_append_safe ['l', 't', ';'] rest (by decide) hr j h

theorem goodAmp_escGt (rest : List Char) (hr : GoodAmp rest) :
    GoodAmp (escGt ++ rest) := by
  intro i h
  cases i with
  | zero =>
      rw [List.drop_zero] at h ⊢
      exact Or.inr (Or.inr (Or.inl ⟨rest, rfl⟩))
  | succ j =>
      have hform : escGt ++ rest = '&' :: (['g', 't', ';'] ++ rest) := rfl
      rw [hform, List.drop_succ_cons] at h ⊢
      exact goodAmp_append_safe ['g', 't', ';'] rest (by decide) hr j h

theorem goodAmp_escQuot (rest : List Char) (hr : GoodAmp rest) :
    GoodAmp (escQuot ++ rest) := by
  intro i h
  cases i with
  | zero =>
      rw [List.drop_zero] at h ⊢
      exact Or.inr (Or.inr (Or.inr (Or.inl ⟨rest, rfl⟩)))
  | succ j =>
      have hform : escQuot ++ rest =
          '&' :: (['q', 'u', 'o', 't', ';'] ++ rest) := rfl
      rw [hform, List.drop_succ_cons] at h ⊢
      exact goodAmp_append_safe ['q', 'u', 'o', 't', ';'] rest (by decide)
        hr j h

theorem goodAmp_escApos (rest : List Char) (hr : GoodAmp rest) :
    GoodAmp (escApos ++ rest) := by
  intro i h
  cases i with
  | zero =>
      rw [List.drop_zero] at h ⊢
      exact Or.inr (Or.inr (Or.inr (Or.inr ⟨rest, rfl⟩)))
  | succ j =>
      have hform : escApos ++ rest =
          '&' :: (['a', 'p', 'o', 's', ';'] ++ rest) := rfl
      rw [hform, List.drop_succ_cons] at h ⊢
      exact goodAmp_append_safe ['a', 'p', 'o', 's', ';'] rest (by decide)
        hr j h

theorem goodAmp_escapeXml (s : List Char) : GoodAmp (escapeXml s) := by
  induction s with
  | nil =>
      rw [show escapeXml [] = [] from rfl]
      exact goodAmp_nil
  | cons c s ih =>
      rw [escapeXml_cons]
      by_cases h1 : c = '&'
      · subst h1
        rw [escapeXml_amp]
        exact goodAmp_escAmp _ ih
      · by_cases h2 : c = '<'
        · subst h2
          rw [escapeXml_lt]
          exact goodAmp_escLt _ ih
        · by_cases h3 : c = '>'
          · subst h3
            rw [escapeXml_gt]
            exact goodAmp_escGt _ ih
          · by_cases h4 : c = quoteChar
            · subst h4
              rw [escapeXml_quot]
              exact goodAmp_escQuot _ ih
            · by_cases h5 : c = aposChar
              · subst h5
                rw [escapeXml_apos]
                exact goodAmp_escApos _ ih
              · rw [escapeXml_other c h1 h2 h3 h4 h5,
                  List.singleton_append]
                exact goodAmp_cons_safe c _ h1 ih

/-- Claim C10: for every input, `escapeXml` output contains no raw `<`,
`>`, double quote or apostrophe, and every ampersand in the output is the
first character of one of the five entities (amp, lt, gt, quot, apos) --
embedding the result as SVG text cannot break out of the text node. -/
theorem c10_escapeXml_safe (s : List Char) :
    (∀ c ∈ escapeXml s, isBad c = false) ∧
    ∀ i : Nat, ((escapeXml s).drop i).head? = some '&' →
      entityAt ((escapeXml s).drop i) :=
  ⟨escapeXml_no_raw s, goodAmp_escapeXml s⟩

/-- Witness for C10 on the concrete input "a<": the output is
`a&lt;`; its sole ampersand (position 1) starts an entity, and the raw
characters are all safe. -/
theorem c10_escapeXml_safe_witness :
    isBad 'a' = false ∧ entityAt ((escapeXml ['a', '<']).drop 1) :=
  ⟨(c10_escapeXml_safe ['a', '<']).1 'a' (by decide),
    (c10_escapeXml_safe ['a', '<']).2 1 (by decide)⟩

end StreamDeck
